import Mathlib

/-!
Verification of the aos service-manager core library against its specification.

The development shallowly embeds the relevant source functions:
- the time and duration arithmetic of include/aos/common/tools/time.hpp,
  with machine integers modelled as mathematical integers wrapped
  explicitly modulo 2^64 (two-complement wrap for int64_t values,
  plain residue for uint64_t values);
- the rolling-average monitor of src/common/monitoring/average.cpp;
- the launcher configuration constants of include/aos/sm/launcher.hpp and
  include/aos/sm/config.hpp;
- the launcher reconcile engine, whose implementation file is not part of
  the sources (only the interface header is); those parts are modelled
  from the specification and are marked as such in their doc comments.
-/

namespace Aos

/-! ## Machine-integer wrapping -/

/-- 2^63, the magnitude bound of int64_t. -/
def two63 : Int := 9223372036854775808

/-- 2^64, the modulus of 64-bit machine arithmetic. -/
def two64 : Int := 18446744073709551616

/-- The int64_t value congruent to x modulo 2^64 (two-complement wrap). -/
def wrap64 (x : Int) : Int := (x + two63) % two64 - two63

/-- The uint64_t value congruent to x modulo 2^64. -/
def uwrap64 (x : Int) : Int := x % two64

/-- Nanoseconds per second, the value of Time::cSeconds.Count(). -/
def nsPerSec : Int := 1000000000

/-! ## Time model (include/aos/common/tools/time.hpp) -/

/-- The POSIX timespec carried by aos::Time: tv_sec is a time_t and tv_nsec
a long, both 64-bit signed integers on the targets this library supports. -/
structure Timespec where
  tv_sec : Int
  tv_nsec : Int
deriving DecidableEq, Repr

/-- aos::Duration: a time duration in nanoseconds stored as int64_t. -/
structure Duration where
  mDuration : Int
deriving DecidableEq, Repr

/-- Duration::Count, the raw nanosecond count. -/
def Duration.Count (d : Duration) : Int := d.mDuration

/-- aos::Time: a time instant backed by a timespec. -/
structure Time where
  mTime : Timespec
deriving DecidableEq, Repr

/-- Time::Unix constructor. -/
def Time.Unix (sec nsec : Int) : Time := ⟨⟨sec, nsec⟩⟩

/-- Time::Add: adds the duration to tv_nsec, moves whole seconds into tv_sec
with C truncated division, then corrects a negative remainder. All int64_t
operations wrap modulo 2^64. -/
def Time.Add (t : Time) (d : Duration) : Time :=
  let nsec : Int := wrap64 (t.mTime.tv_nsec + d.Count)
  let sec : Int := wrap64 (t.mTime.tv_sec + nsec.tdiv nsPerSec)
  let nrem : Int := nsec.tmod nsPerSec
  if nrem < 0 then
    ⟨⟨wrap64 (sec - 1), nrem + nsPerSec⟩⟩
  else
    ⟨⟨sec, nrem⟩⟩

/-- Time::UnixNano: computes tv_nsec + tv_sec * 10^9 in int64_t arithmetic
and converts the result to uint64_t. -/
def Time.UnixNano (t : Time) : Int :=
  uwrap64 (wrap64 (t.mTime.tv_nsec + wrap64 (t.mTime.tv_sec * nsPerSec)))

/-- Time::Sub: the uint64_t difference of the two UnixNano values, converted
to the int64_t stored in the resulting Duration. -/
def Time.Sub (t other : Time) : Duration :=
  ⟨wrap64 (uwrap64 (t.UnixNano - other.UnixNano))⟩

/-- Total nanosecond value represented by a timespec, as an exact integer. -/
def Timespec.totalNs (ts : Timespec) : Int := ts.tv_sec * nsPerSec + ts.tv_nsec

/-! ## Common types -/

/-- aos::InstanceIdent: the (service, subject, index) triple identifying an
instance; the primary key of the running-instance maps. -/
structure InstanceIdent where
  serviceID : String
  subjectID : String
  instanceIndex : Nat
deriving DecidableEq, Repr

/-- Error kinds originated by the embedded code paths. -/
inductive Err
  | none
  | notFound
  | alreadyExist
  | invalidArgument
deriving DecidableEq, Repr

/-- Error::IsNone. -/
def Err.IsNone : Err → Bool
  | Err.none => true
  | _ => false

/-! ## Rolling average monitor (src/common/monitoring/average.cpp)

The monitored values (CPU, RAM, download, upload, per-partition used size)
are 64-bit unsigned counters; they are modelled as naturals with the wrap
of multiplication written out modulo 2^64. The subtraction inside
UpdateValue never underflows because GetValue of a value is at most the
value itself (getValue_le below). -/

/-- 2^64 as a natural, the modulus of the uint64_t counters. -/
def two64N : Nat := 18446744073709551616

/-- GetValue for an integral type: Round of value / window, where Round adds
one half and truncates; for nonnegative integers this is the floor of
value / window + 1 / 2, i.e. (2 * value + window) / (2 * window). -/
def GetValue (value window : Nat) : Nat := (2 * value + window) / (2 * window)

/-- UpdateValue: seeds the accumulator with newValue * window on the first
sample, afterwards subtracts the current average and adds the new sample. -/
def UpdateValue (value newValue window : Nat) (isInitialized : Bool) : Nat :=
  if !isInitialized then (newValue * window) % two64N
  else (value - GetValue value window + newValue) % two64N

/-- MonitoringData: the counters averaged by the monitor; mDisk holds the
used size of each partition, the only per-partition field the averaging
code reads or writes. -/
structure MonitoringData where
  mCPU : Nat
  mRAM : Nat
  mDisk : List Nat
  mDownload : Nat
  mUpload : Nat
deriving DecidableEq, Repr

/-- AverageData: accumulator plus the initialized flag. -/
structure AverageData where
  mIsInitialized : Bool
  mMonitoringData : MonitoringData
deriving DecidableEq, Repr

/-- One entry of NodeMonitoringData::mServiceInstances. -/
structure InstanceMonitoringData where
  mInstanceIdent : InstanceIdent
  mMonitoringData : MonitoringData
deriving DecidableEq, Repr

/-- NodeMonitoringData: node counters plus per-instance counters. -/
structure NodeMonitoringData where
  mMonitoringData : MonitoringData
  mServiceInstances : List InstanceMonitoringData
deriving DecidableEq, Repr

/-- The Average object state. -/
structure Average where
  mWindowCount : Nat
  mAverageNodeData : AverageData
  mAverageInstancesData : List (InstanceIdent × AverageData)
deriving DecidableEq, Repr

/-- StaticMap::At by instance ident. -/
def mapFind (m : List (InstanceIdent × AverageData)) (k : InstanceIdent) : Option AverageData :=
  (m.find? (fun p => p.1 == k)).map (fun p => p.2)

/-- Write back through the reference returned by StaticMap::At. -/
def mapSet (m : List (InstanceIdent × AverageData)) (k : InstanceIdent) (v : AverageData) :
    List (InstanceIdent × AverageData) :=
  m.map (fun p => if p.1 == k then (k, v) else p)

/-- Average::UpdateMonitoringData: updates the four scalar counters, then
fails with invalidArgument on a partition-count mismatch (leaving the
scalars already overwritten), otherwise updates every partition used size
and marks the accumulator initialized. -/
def Average.UpdateMonitoringData (window : Nat) (data newData : MonitoringData)
    (isInitialized : Bool) : Err × MonitoringData × Bool :=
  let d1 : MonitoringData :=
    { data with
      mCPU := UpdateValue data.mCPU newData.mCPU window isInitialized
      mRAM := UpdateValue data.mRAM newData.mRAM window isInitialized
      mDownload := UpdateValue data.mDownload newData.mDownload window isInitialized
      mUpload := UpdateValue data.mUpload newData.mUpload window isInitialized }
  if d1.mDisk.length ≠ newData.mDisk.length then
    (Err.invalidArgument, d1, isInitialized)
  else
    (Err.none,
      { d1 with
        mDisk := List.zipWith (fun v nv => UpdateValue v nv window isInitialized)
          d1.mDisk newData.mDisk },
      true)

/-- The per-instance loop of Average::Update, embedded with the control flow
of the source: an unknown ident returns notFound; after a successful
per-instance update the condition err.IsNone() makes the function return
immediately with that (eNone) error, skipping the remaining instances; a
failed per-instance update is swallowed and the loop continues. -/
def Average.updateInstances (window : Nat) (m : List (InstanceIdent × AverageData)) :
    List InstanceMonitoringData → Err × List (InstanceIdent × AverageData)
  | [] => (Err.none, m)
  | inst :: rest =>
    match mapFind m inst.mInstanceIdent with
    | Option.none => (Err.notFound, m)
    | Option.some avg =>
      let res := Average.UpdateMonitoringData window avg.mMonitoringData
        inst.mMonitoringData avg.mIsInitialized
      let m1 := mapSet m inst.mInstanceIdent ⟨res.2.2, res.2.1⟩
      if res.1.IsNone then (res.1, m1)
      else Average.updateInstances window m1 rest

/-- Average::Update: updates the node average, then runs the per-instance
loop. -/
def Average.Update (a : Average) (data : NodeMonitoringData) : Err × Average :=
  let resN := Average.UpdateMonitoringData a.mWindowCount
    a.mAverageNodeData.mMonitoringData data.mMonitoringData a.mAverageNodeData.mIsInitialized
  let a1 : Average := { a with mAverageNodeData := ⟨resN.2.2, resN.2.1⟩ }
  if resN.1.IsNone = false then (resN.1, a1)
  else
    let resI := Average.updateInstances a.mWindowCount a1.mAverageInstancesData
      data.mServiceInstances
    (resI.1, { a1 with mAverageInstancesData := resI.2 })

/-- Average::Init: stores the window count, coercing zero to one, installs
the node partitions and clears the per-instance map. -/
def Average.Init (nodeDisks : List Nat) (windowCount : Nat) : Average :=
  let w := if windowCount = 0 then 1 else windowCount
  { mWindowCount := w
    mAverageNodeData := ⟨false, ⟨0, 0, nodeDisks, 0, 0⟩⟩
    mAverageInstancesData := [] }

/-- Average::StartInstanceMonitoring: rejects a duplicate ident, otherwise
registers a fresh zeroed accumulator listing the configured partitions. -/
def Average.StartInstanceMonitoring (a : Average) (ident : InstanceIdent)
    (partitions : List Nat) : Err × Average :=
  match mapFind a.mAverageInstancesData ident with
  | Option.some _ => (Err.alreadyExist, a)
  | Option.none =>
    (Err.none,
      { a with
        mAverageInstancesData :=
          a.mAverageInstancesData ++ [(ident, ⟨false, ⟨0, 0, partitions, 0, 0⟩⟩)] })

/-! ## Launcher configuration (include/aos/sm/config.hpp, include/aos/sm/launcher.hpp) -/

/-- Default number of parallel instance launches (include/aos/sm/config.hpp). -/
def AOS_CONFIG_LAUNCHER_NUM_COOPERATE_LAUNCHES : Nat := 5

/-- Launcher::cNumLaunchThreads, the worker count of the launch pool. -/
def Launcher.cNumLaunchThreads : Nat := AOS_CONFIG_LAUNCHER_NUM_COOPERATE_LAUNCHES

/-- The variadic Max of the aos tools library applied to three arguments. -/
def Max3 (a b c : Nat) : Nat := max a (max b c)

/-- The task-queue capacity template argument of Launcher::mLaunchPool:
Max(cMaxNumInstances, cMaxNumServices, cMaxNumLayers). -/
def Launcher.launchPoolCapacity (maxNumInstances maxNumServices maxNumLayers : Nat) : Nat :=
  Max3 maxNumInstances maxNumServices maxNumLayers

/-- Launcher::cOperationVersion (include/aos/sm/launcher.hpp). -/
def Launcher.cOperationVersion : Nat := 9

/-! ## Launcher initialization (spec-modelled) -/

/-- Desired-state record for one instance: ident, priority and the
resource-limits block (opaque to the properties proved here). -/
structure InstanceInfo where
  instanceIdent : InstanceIdent
  priority : Nat
  limits : Nat
deriving DecidableEq, Repr

/-- The persisted launcher storage: instance records plus the operation
version counter. -/
structure LauncherStorage where
  instances : List InstanceInfo
  operationVersion : Nat
deriving DecidableEq, Repr

/-- Modelled from the spec: the launcher implementation file is not among
the sources, only its interface header is. Per the spec, on start the core
reads the persisted operation version and, when it is lower than the
built-in Launcher::cOperationVersion, purges all persisted instance records
before the first reconcile proceeds, then records the new version. -/
def Launcher.initStorage (st : LauncherStorage) : LauncherStorage :=
  if st.operationVersion < Launcher.cOperationVersion then
    { instances := [], operationVersion := Launcher.cOperationVersion }
  else st

/-! ## Launcher reconcile engine

The launcher implementation file is not among the sources; only the
interface header include/aos/sm/launcher.hpp is. The definitions in this
section are therefore modelled from the specification (sections 4.1 to 4.3
and 5 of the spec), as their doc comments state. -/

/-- aos::ServiceInfo restricted to the fields the reconcile reads:
service id and version. -/
structure ServiceInfo where
  serviceID : String
  version : Nat
deriving DecidableEq, Repr

/-- aos::LayerInfo, opaque to the core. -/
structure LayerInfo where
  layerID : String
deriving DecidableEq, Repr

/-- Per-instance lifecycle state. -/
inductive InstanceRunState
  | created
  | starting
  | running
  | stopping
  | stopped
  | failed
deriving DecidableEq, Repr

/-- Modelled from the spec: the runtime Instance record of the live map,
holding the desired info snapshot, the service version in use, the runtime
state, the last error and the generation counter. -/
structure Instance where
  info : InstanceInfo
  serviceVersion : Nat
  runState : InstanceRunState
  lastError : Option String
  generation : Nat
deriving DecidableEq, Repr

/-- Identity of a live instance. -/
def Instance.ident (i : Instance) : InstanceIdent := i.info.instanceIdent

/-- Infrastructure errors: the two whole-cycle failures of the spec. -/
inductive InfraError
  | storageWrite
  | serviceManager
deriving DecidableEq, Repr

/-- Behaviour of the external collaborators during one cycle: whether the
service-manager invocation fails, whether the persist step fails, which
services have unusable artifacts, and the runner response per started
instance (none means started and Running, some e means start failed). -/
structure CycleEnv where
  serviceManagerError : Bool
  storageWriteError : Bool
  brokenServices : List String
  runnerStart : InstanceInfo → Option String

/-- In-memory launcher state: live instance map, service cache, and the
mirror of the persisted instance set. -/
structure LauncherState where
  live : List Instance
  serviceCache : List ServiceInfo
  stored : List InstanceInfo
deriving DecidableEq, Repr

/-- A worker-pool job execution event. -/
inductive Event
  | stopJob (ident : InstanceIdent)
  | startJob (ident : InstanceIdent)
deriving DecidableEq, Repr

/-- Whether an event is a stop job. -/
def Event.isStop : Event → Bool
  | Event.stopJob _ => true
  | Event.startJob _ => false

/-- Whether an event is a start job. -/
def Event.isStart : Event → Bool
  | Event.stopJob _ => false
  | Event.startJob _ => true

/-- Whether a desired set contains an ident. -/
def hasIdent (D : List InstanceInfo) (id : InstanceIdent) : Bool :=
  D.any (fun d => d.instanceIdent == id)

/-- Whether a live map contains an ident. -/
def liveHasIdent (L : List Instance) (id : InstanceIdent) : Bool :=
  L.any (fun i => i.ident == id)

/-- Service lookup by id. -/
def findService (services : List ServiceInfo) (sid : String) : Option ServiceInfo :=
  services.find? (fun s => s.serviceID == sid)

/-- Live instance lookup by ident. -/
def findLive (L : List Instance) (id : InstanceIdent) : Option Instance :=
  L.find? (fun i => i.ident == id)

/-- Modelled from the spec: step 4 of the reconcile. A live instance is
stopped when its ident left the desired set, or on force restart, or when
the service version or the resource limits changed. -/
def Launcher.stopCondition (D : List InstanceInfo) (cache : List ServiceInfo) (force : Bool)
    (i : Instance) : Bool :=
  match D.find? (fun d => d.instanceIdent == i.ident) with
  | Option.none => true
  | Option.some d =>
    force || ((findService cache i.ident.serviceID).map ServiceInfo.version
        != Option.some i.serviceVersion)
      || (d.limits != i.info.limits)

/-- Modelled from the spec: the to-stop set of step 4. -/
def Launcher.toStop (D : List InstanceInfo) (cache : List ServiceInfo) (force : Bool)
    (L : List Instance) : List Instance :=
  L.filter (Launcher.stopCondition D cache force)

/-- Modelled from the spec: the live instances surviving the stop phase,
the complement of the to-stop set inside the live map. -/
def Launcher.survivors (D : List InstanceInfo) (cache : List ServiceInfo) (force : Bool)
    (L : List Instance) : List Instance :=
  L.filter (fun i => !(Launcher.stopCondition D cache force i))

/-- Modelled from the spec: the to-start set of step 4, the desired records
whose ident is not live plus those being restarted. -/
def Launcher.toStart (L : List Instance) (D : List InstanceInfo) (cache : List ServiceInfo)
    (force : Bool) : List InstanceInfo :=
  D.filter (fun d => !liveHasIdent L d.instanceIdent
    || liveHasIdent (Launcher.toStop D cache force L) d.instanceIdent)

/-- Total order on idents, lexicographic on the triple. -/
def identLe (a b : InstanceIdent) : Bool :=
  decide (a.serviceID < b.serviceID)
    || (a.serviceID == b.serviceID
      && (decide (a.subjectID < b.subjectID)
        || (a.subjectID == b.subjectID && decide (a.instanceIndex ≤ b.instanceIndex))))

/-- Start-phase submission order of step 6: descending priority, ident as
deterministic tie-break. -/
def startBefore (a b : InstanceInfo) : Bool :=
  decide (b.priority < a.priority)
    || (a.priority == b.priority && identLe a.instanceIdent b.instanceIdent)

/-- Insertion step of the sort used for the start phase. -/
def insertSorted (x : InstanceInfo) : List InstanceInfo → List InstanceInfo
  | [] => [x]
  | y :: ys => if startBefore x y then x :: y :: ys else y :: insertSorted x ys

/-- Sorts the to-start set into submission order. -/
def sortStarts (l : List InstanceInfo) : List InstanceInfo :=
  l.foldr insertSorted []

/-- Modelled from the spec: one start job (section 4.2). A missing or broken
service records Failed without invoking the runner; otherwise the runner
response is interpreted into the initial runtime state. -/
def Launcher.startJob (cache : List ServiceInfo) (env : CycleEnv) (d : InstanceInfo) : Instance :=
  match findService cache d.instanceIdent.serviceID with
  | Option.none => ⟨d, 0, InstanceRunState.failed, Option.some "broken service", 1⟩
  | Option.some svc =>
    if env.brokenServices.contains d.instanceIdent.serviceID then
      ⟨d, svc.version, InstanceRunState.failed, Option.some "broken service", 1⟩
    else
      match env.runnerStart d with
      | Option.none => ⟨d, svc.version, InstanceRunState.running, Option.none, 1⟩
      | Option.some e => ⟨d, svc.version, InstanceRunState.failed, Option.some e, 1⟩

/-- Keyed insert into the live map: updates the record holding the same
ident, otherwise appends. -/
def insertInstance (m : List Instance) (i : Instance) : List Instance :=
  if liveHasIdent m i.ident then m.map (fun j => if j.ident == i.ident then i else j)
  else m ++ [i]

/-- Modelled from the spec: step 3, cache an entry per service id referenced
by the desired set. -/
def buildCache (services : List ServiceInfo) (D : List InstanceInfo) : List ServiceInfo :=
  services.filter (fun s => D.any (fun d => d.instanceIdent.serviceID == s.serviceID))

/-- Modelled from the spec: the purge after step 6 of service ids no longer
referenced by any live instance. -/
def pruneCache (cache : List ServiceInfo) (L : List Instance) : List ServiceInfo :=
  cache.filter (fun s => L.any (fun i => i.ident.serviceID == s.serviceID))

/-- The start phase: submit the sorted jobs and fold their results into the
live map. -/
def Launcher.startPhase (cache : List ServiceInfo) (env : CycleEnv) (base : List Instance)
    (starts : List InstanceInfo) : List Instance :=
  starts.foldl (fun m d => insertInstance m (Launcher.startJob cache env d)) base

/-- Result of one reconcile cycle: the error returned to the caller, the
in-memory state after the cycle, the worker-pool job trace, and the
published per-instance statuses. -/
structure CycleOutcome where
  result : Option InfraError
  state : LauncherState
  trace : List Event
  statuses : List (InstanceIdent × InstanceRunState × Option String)

/-- The start list submitted by step 6: the to-start set in sorted
submission order. -/
def Launcher.cycleStarts (st : LauncherState) (services : List ServiceInfo)
    (D : List InstanceInfo) (force : Bool) : List InstanceInfo :=
  sortStarts (Launcher.toStart st.live D (buildCache services D) force)

/-- The live map produced by the stop and start phases of one cycle. -/
def Launcher.cycleLive (st : LauncherState) (services : List ServiceInfo)
    (D : List InstanceInfo) (force : Bool) (env : CycleEnv) : List Instance :=
  Launcher.startPhase (buildCache services D) env
    (Launcher.survivors D (buildCache services D) force st.live)
    (Launcher.cycleStarts st services D force)

/-- The worker-pool job trace of one cycle: every stop job submitted and
drained, then every start job in submission order. -/
def Launcher.cycleTrace (st : LauncherState) (services : List ServiceInfo)
    (D : List InstanceInfo) (force : Bool) : List Event :=
  (Launcher.toStop D (buildCache services D) force st.live).map (fun i => Event.stopJob i.ident)
    ++ (Launcher.cycleStarts st services D force).map (fun d => Event.startJob d.instanceIdent)

/-- Modelled from the spec: the RunInstances reconcile cycle of section 4.1.
A service-manager failure aborts before any phase; the stop phase drains
before the start phase is submitted; per-instance start failures are
recorded on the instance and do not abort the cycle; a storage write
failure on the persist step aborts the cycle and rolls the in-memory state
back to the pre-cycle snapshot; on success the new state and the full
status snapshot are produced. -/
def Launcher.runInstances (st : LauncherState) (services : List ServiceInfo)
    (_layers : List LayerInfo) (D : List InstanceInfo) (force : Bool) (env : CycleEnv) :
    CycleOutcome :=
  if env.serviceManagerError then
    ⟨Option.some InfraError.serviceManager, st, [], []⟩
  else if env.storageWriteError then
    ⟨Option.some InfraError.storageWrite, st, Launcher.cycleTrace st services D force, []⟩
  else
    ⟨Option.none,
      ⟨Launcher.cycleLive st services D force env,
        pruneCache (buildCache services D) (Launcher.cycleLive st services D force env),
        (Launcher.cycleLive st services D force env).map Instance.info⟩,
      Launcher.cycleTrace st services D force,
      (Launcher.cycleLive st services D force env).map (fun i => (i.ident, i.runState, i.lastError))⟩

/-- A runner-reported per-instance status. -/
structure RunStatus where
  instanceIdent : InstanceIdent
  state : InstanceRunState
  error : Option String
deriving DecidableEq, Repr

/-- Modelled from the spec: UpdateRunStatus of the status aggregator
(section 4.3). Each reported entry with an unknown ident is dropped without
synthesizing a record; a known ident has its runtime state and last error
updated and its generation bumped. -/
def Launcher.applyRunStatus (m : List Instance) (r : RunStatus) : List Instance :=
  if liveHasIdent m r.instanceIdent then
    m.map (fun i =>
      if i.ident == r.instanceIdent then
        { i with runState := r.state, lastError := r.error, generation := i.generation + 1 }
      else i)
  else m

/-- Modelled from the spec: processing of a whole runner report, one entry
at a time in report order. -/
def Launcher.updateRunStatus (L : List Instance) (reports : List RunStatus) : List Instance :=
  reports.foldl Launcher.applyRunStatus L

/-! ## Environment-variable overrides (spec-modelled, section 4.4) -/

/-- An instance selector: any subset of the ident fields, a missing field
being a wildcard. -/
structure EnvVarSelector where
  serviceID : Option String
  subjectID : Option String
  instanceIndex : Option Nat
deriving DecidableEq, Repr

/-- Whether the selector matches an ident: every specified field must
agree. -/
def EnvVarSelector.selects (s : EnvVarSelector) (id : InstanceIdent) : Bool :=
  (match s.serviceID with
    | Option.none => true
    | Option.some x => x == id.serviceID)
  && (match s.subjectID with
    | Option.none => true
    | Option.some x => x == id.subjectID)
  && (match s.instanceIndex with
    | Option.none => true
    | Option.some x => x == id.instanceIndex)

/-- Specificity of a selector: the number of specified fields, so an exact
ident scores 3, two fields 2, one field 1, the full wildcard 0. -/
def EnvVarSelector.specificity (s : EnvVarSelector) : Nat :=
  (if s.serviceID.isSome then 1 else 0)
    + (if s.subjectID.isSome then 1 else 0)
    + (if s.instanceIndex.isSome then 1 else 0)

/-- One override entry: selector, variable name, value and optional expiry
time. -/
structure EnvVarEntry where
  selector : EnvVarSelector
  name : String
  value : String
  expiry : Option Nat
deriving DecidableEq, Repr

/-- Whether the entry is active at the given time: expiry absent or in the
future. -/
def EnvVarEntry.active (e : EnvVarEntry) (now : Nat) : Bool :=
  match e.expiry with
  | Option.none => true
  | Option.some t => decide (now < t)

/-- Modelled from the spec: one evaluation step of section 4.4. A matching,
active entry assigns its value to its variable when no value is present yet
or when its specificity is at least the specificity of the present value;
the later entry thus wins among equals, and anything less specific loses. -/
def applyOverride (id : InstanceIdent) (now : Nat) (ov : String → Option (Nat × String))
    (e : EnvVarEntry) : String → Option (Nat × String) :=
  if e.selector.selects id && e.active now then
    fun v =>
      if v = e.name then
        match ov v with
        | Option.none => Option.some (e.selector.specificity, e.value)
        | Option.some p =>
          if p.1 ≤ e.selector.specificity then Option.some (e.selector.specificity, e.value)
          else ov v
      else ov v
  else ov

/-- Modelled from the spec: the overlay computed at instance launch,
starting from the empty overlay and folding every override entry in order.
The overlay carries, per variable name, the value assigned so far and the
specificity of the selector that assigned it. -/
def evalOverrides (entries : List EnvVarEntry) (id : InstanceIdent) (now : Nat) :
    String → Option (Nat × String) :=
  entries.foldl (applyOverride id now) (fun _ => Option.none)

/-- The matching, active entries for one variable, in entry order. -/
def candidates (entries : List EnvVarEntry) (id : InstanceIdent) (now : Nat) (v : String) :
    List EnvVarEntry :=
  entries.filter (fun e => e.selector.selects id && e.active now && e.name == v)

/-- One step of the specification reading of section 4.4: keep the more
specific assignment, the later entry winning ties. -/
def pickStep (cur : Option (Nat × String)) (e : EnvVarEntry) : Option (Nat × String) :=
  match cur with
  | Option.none => Option.some (e.selector.specificity, e.value)
  | Option.some p =>
    if p.1 ≤ e.selector.specificity then Option.some (e.selector.specificity, e.value)
    else cur

/-- The specification reading of section 4.4 for one variable: fold the
matching active entries, the more specific (later on ties) winning. -/
def pickWinner (l : List EnvVarEntry) : Option (Nat × String) :=
  l.foldl pickStep Option.none

/-! ## Theorems -/

theorem wrap64_emod (x : Int) : wrap64 x % two64 = x % two64 := by
  simp only [wrap64, two63, two64]
  omega

theorem wrap64_lb (x : Int) : -two63 ≤ wrap64 x := by
  simp only [wrap64, two63, two64]
  omega

theorem wrap64_ub (x : Int) : wrap64 x < two63 := by
  simp only [wrap64, two63, two64]
  omega

theorem uwrap64_emod (x : Int) : uwrap64 x % two64 = x % two64 := by
  simp only [uwrap64, two64]
  omega

theorem uwrap64_lb (x : Int) : 0 ≤ uwrap64 x := by
  simp only [uwrap64, two64]
  omega

theorem uwrap64_ub (x : Int) : uwrap64 x < two64 := by
  simp only [uwrap64, two64]
  omega

theorem wrap64_eq_of_emod_eq (x y : Int) (h : x % two64 = y % two64)
    (hlo : -two63 ≤ y) (hhi : y < two63) : wrap64 x = y := by
  simp only [wrap64, two63, two64] at *
  omega

theorem uwrap64_eq_of_emod_eq (x y : Int) (h : x % two64 = y % two64) :
    uwrap64 x = uwrap64 y := by
  simp only [uwrap64, two64] at *
  omega

theorem totalNs_add_emod (t : Time) (d : Duration) :
    ((t.Add d).mTime.totalNs) % two64 = (t.mTime.totalNs + d.Count) % two64 := by
  unfold Time.Add
  set n0 : Int := t.mTime.tv_nsec + d.Count with hn0
  set nsec : Int := wrap64 n0 with hnsec
  have hqr : nsPerSec * (nsec.tdiv nsPerSec) + nsec.tmod nsPerSec = nsec :=
    Int.tdiv_add_tmod nsec nsPerSec
  set q : Int := nsec.tdiv nsPerSec with hq
  set r : Int := nsec.tmod nsPerSec with hr
  have hsec : wrap64 (t.mTime.tv_sec + q) % two64 = (t.mTime.tv_sec + q) % two64 :=
    wrap64_emod _
  have hwn : nsec % two64 = n0 % two64 := wrap64_emod n0
  by_cases hneg : r < 0
  · simp only [hneg, if_pos, Timespec.totalNs]
    have h1 : wrap64 (wrap64 (t.mTime.tv_sec + q) - 1) % two64
        = (t.mTime.tv_sec + q - 1) % two64 := by
      rw [wrap64_emod, Int.sub_emod, hsec, ← Int.sub_emod]
    have h2 : (wrap64 (wrap64 (t.mTime.tv_sec + q) - 1) * nsPerSec) % two64
        = ((t.mTime.tv_sec + q - 1) * nsPerSec) % two64 := by
      rw [Int.mul_emod, h1, ← Int.mul_emod]
    calc (wrap64 (wrap64 (t.mTime.tv_sec + q) - 1) * nsPerSec + (r + nsPerSec)) % two64
        = ((wrap64 (wrap64 (t.mTime.tv_sec + q) - 1) * nsPerSec) % two64 + (r + nsPerSec)) % two64 :=
          (Int.emod_add_emod _ two64 _).symm
      _ = (((t.mTime.tv_sec + q - 1) * nsPerSec) % two64 + (r + nsPerSec)) % two64 := by rw [h2]
      _ = ((t.mTime.tv_sec + q - 1) * nsPerSec + (r + nsPerSec)) % two64 := by
          rw [Int.emod_add_emod]
      _ = (t.mTime.tv_sec * nsPerSec + (nsPerSec * q + r)) % two64 := by ring_nf
      _ = (t.mTime.tv_sec * nsPerSec + nsec) % two64 := by rw [hqr]
      _ = (t.mTime.tv_sec * nsPerSec % two64 + nsec % two64) % two64 := by rw [Int.add_emod]
      _ = (t.mTime.tv_sec * nsPerSec % two64 + n0 % two64) % two64 := by rw [hwn]
      _ = (t.mTime.tv_sec * nsPerSec + n0) % two64 := by rw [← Int.add_emod]
      _ = (t.mTime.tv_sec * nsPerSec + t.mTime.tv_nsec + d.Count) % two64 := by
          rw [hn0]; ring_nf
  · simp only [hneg, if_neg, Timespec.totalNs, not_false_iff]
    have h2 : (wrap64 (t.mTime.tv_sec + q) * nsPerSec) % two64
        = ((t.mTime.tv_sec + q) * nsPerSec) % two64 := by
      rw [Int.mul_emod, hsec, ← Int.mul_emod]
    calc (wrap64 (t.mTime.tv_sec + q) * nsPerSec + r) % two64
        = ((wrap64 (t.mTime.tv_sec + q) * nsPerSec) % two64 + r) % two64 := by
          rw [Int.emod_add_emod]
      _ = (((t.mTime.tv_sec + q) * nsPerSec) % two64 + r) % two64 := by rw [h2]
      _ = ((t.mTime.tv_sec + q) * nsPerSec + r) % two64 := by rw [Int.emod_add_emod]
      _ = (t.mTime.tv_sec * nsPerSec + (nsPerSec * q + r)) % two64 := by ring_nf
      _ = (t.mTime.tv_sec * nsPerSec + nsec) % two64 := by rw [hqr]
      _ = (t.mTime.tv_sec * nsPerSec % two64 + nsec % two64) % two64 := by rw [Int.add_emod]
      _ = (t.mTime.tv_sec * nsPerSec % two64 + n0 % two64) % two64 := by rw [hwn]
      _ = (t.mTime.tv_sec * nsPerSec + n0) % two64 := by rw [← Int.add_emod]
      _ = (t.mTime.tv_sec * nsPerSec + t.mTime.tv_nsec + d.Count) % two64 := by
          rw [hn0]; ring_nf

theorem unixNano_eq_uwrap_totalNs (t : Time) : t.UnixNano = uwrap64 t.mTime.totalNs := by
  unfold Time.UnixNano Timespec.totalNs
  apply uwrap64_eq_of_emod_eq
  rw [wrap64_emod, Int.add_emod, wrap64_emod, ← Int.add_emod]
  ring_nf

/-- C9: for every Time t and every Duration d, with the 64-bit machine
arithmetic taken modulo 2^64, (t.Add d).Sub t equals d exactly,
(t.Add d).UnixNano equals the uint64_t value of t.UnixNano + d.Count, and
the timespec normalization performed by Add never changes the total
nanosecond value modulo 2^64. -/
theorem time_add_sub_unixNano (t : Time) (d : Duration)
    (hlo : -two63 ≤ d.Count) (hhi : d.Count < two63) :
    (t.Add d).Sub t = d ∧
    (t.Add d).UnixNano = uwrap64 (t.UnixNano + d.Count) ∧
    uwrap64 (t.Add d).mTime.totalNs = uwrap64 (t.mTime.totalNs + d.Count) := by
  have htot : ((t.Add d).mTime.totalNs) % two64 = (t.mTime.totalNs + d.Count) % two64 :=
    totalNs_add_emod t d
  have hU : (t.Add d).UnixNano = uwrap64 (t.UnixNano + d.Count) := by
    rw [unixNano_eq_uwrap_totalNs, unixNano_eq_uwrap_totalNs]
    apply uwrap64_eq_of_emod_eq _ _
    rw [htot]
    rw [Int.add_emod (t.mTime.totalNs), Int.add_emod (uwrap64 t.mTime.totalNs), uwrap64_emod]
  refine ⟨?_, hU, ?_⟩
  · unfold Time.Sub
    have hcong : (uwrap64 ((t.Add d).UnixNano - t.UnixNano)) % two64 = d.Count % two64 := by
      rw [uwrap64_emod, hU, unixNano_eq_uwrap_totalNs]
      simp only [uwrap64, two64]
      omega
    have hwd : wrap64 (uwrap64 ((t.Add d).UnixNano - t.UnixNano)) = d.Count :=
      wrap64_eq_of_emod_eq _ _ hcong hlo hhi
    rw [hwd]
    rfl
  · exact uwrap64_eq_of_emod_eq _ _ htot

theorem time_add_sub_unixNano_witness :
    (-two63 ≤ (Duration.mk 1500000001).Count ∧ (Duration.mk 1500000001).Count < two63) ∧
    ((Time.Unix 1 999999999).Add (Duration.mk 1500000001)).Sub (Time.Unix 1 999999999)
        = Duration.mk 1500000001 ∧
    ((Time.Unix 1 999999999).Add (Duration.mk 1500000001)).UnixNano
        = uwrap64 ((Time.Unix 1 999999999).UnixNano + (Duration.mk 1500000001).Count) ∧
    uwrap64 (((Time.Unix 1 999999999).Add (Duration.mk 1500000001)).mTime.totalNs)
        = uwrap64 ((Time.Unix 1 999999999).mTime.totalNs + (Duration.mk 1500000001).Count) :=
  ⟨⟨by decide, by decide⟩,
    time_add_sub_unixNano (Time.Unix 1 999999999) (Duration.mk 1500000001)
      (by decide) (by decide)⟩

theorem getValue_le (value window : Nat) (h : 1 ≤ window) : GetValue value window ≤ value := by
  unfold GetValue
  have h2 : 0 < 2 * window := by omega
  rw [Nat.div_le_iff_le_mul_add_pred h2]
  have hmul : 2 * value ≤ 2 * window * value :=
    Nat.mul_le_mul_right value (by omega)
  calc 2 * value + window ≤ 2 * window * value + window := Nat.add_le_add_right hmul window
    _ ≤ 2 * window * value + (2 * window - 1) := Nat.add_le_add_left (by omega) _

/-- C10: evaluation of Average at a concrete failing input. Two instances are
registered through StartInstanceMonitoring and both are listed in the update
with fresh samples, so by the claim Update should fold both samples in and
return eNone. The code does return eNone, and Init has coerced the zero
window count to one, but the inverted error check in the instance loop makes
Update return right after the first instance, so the second instance keeps
its zeroed, uninitialized accumulator: its sample is never incorporated. -/
theorem average_update_second_instance_not_incorporated :
    (Average.Init [] 0).mWindowCount = 1 ∧
    (Average.Update
        ((((Average.Init [] 0).StartInstanceMonitoring ⟨"s1", "u", 0⟩ []).2.StartInstanceMonitoring
            ⟨"s2", "u", 1⟩ []).2)
        ⟨⟨5, 6, [], 7, 8⟩, [⟨⟨"s1", "u", 0⟩, ⟨10, 0, [], 0, 0⟩⟩,
          ⟨⟨"s2", "u", 1⟩, ⟨20, 0, [], 0, 0⟩⟩]⟩).1 = Err.none ∧
    mapFind (Average.Update
        ((((Average.Init [] 0).StartInstanceMonitoring ⟨"s1", "u", 0⟩ []).2.StartInstanceMonitoring
            ⟨"s2", "u", 1⟩ []).2)
        ⟨⟨5, 6, [], 7, 8⟩, [⟨⟨"s1", "u", 0⟩, ⟨10, 0, [], 0, 0⟩⟩,
          ⟨⟨"s2", "u", 1⟩, ⟨20, 0, [], 0, 0⟩⟩]⟩).2.mAverageInstancesData ⟨"s1", "u", 0⟩
      = Option.some ⟨true, ⟨10, 0, [], 0, 0⟩⟩ ∧
    mapFind (Average.Update
        ((((Average.Init [] 0).StartInstanceMonitoring ⟨"s1", "u", 0⟩ []).2.StartInstanceMonitoring
            ⟨"s2", "u", 1⟩ []).2)
        ⟨⟨5, 6, [], 7, 8⟩, [⟨⟨"s1", "u", 0⟩, ⟨10, 0, [], 0, 0⟩⟩,
          ⟨⟨"s2", "u", 1⟩, ⟨20, 0, [], 0, 0⟩⟩]⟩).2.mAverageInstancesData ⟨"s2", "u", 1⟩
      = Option.some ⟨false, ⟨0, 0, [], 0, 0⟩⟩ := by
  refine ⟨rfl, ?_, ?_, ?_⟩ <;> decide

/-- C8: the launch pool has a fixed worker count defaulting to 5, and each
worker queue capacity is at least each of the configured maxima for
instances, services and layers, hence at least their maximum. -/
theorem launcher_pool_size_and_capacity :
    Launcher.cNumLaunchThreads = 5 ∧
    ∀ maxNumInstances maxNumServices maxNumLayers : Nat,
      max maxNumInstances (max maxNumServices maxNumLayers)
        ≤ Launcher.launchPoolCapacity maxNumInstances maxNumServices maxNumLayers := by
  refine ⟨rfl, ?_⟩
  intro i s l
  simp [Launcher.launchPoolCapacity, Max3]

/-- C1: cOperationVersion equals 9, and whenever the persisted operation
version is strictly lower, initialization leaves the persisted instance set
empty before the first reconcile. -/
theorem launcher_opversion_purge (st : LauncherStorage)
    (h : st.operationVersion < Launcher.cOperationVersion) :
    Launcher.cOperationVersion = 9 ∧ (Launcher.initStorage st).instances = [] := by
  refine ⟨rfl, ?_⟩
  unfold Launcher.initStorage
  rw [if_pos h]

theorem launcher_opversion_purge_witness :
    (LauncherStorage.mk [⟨⟨"s1", "u", 0⟩, 3, 0⟩] 8).operationVersion < Launcher.cOperationVersion ∧
    (Launcher.cOperationVersion = 9 ∧
      (Launcher.initStorage (LauncherStorage.mk [⟨⟨"s1", "u", 0⟩, 3, 0⟩] 8)).instances = []) :=
  ⟨by decide, launcher_opversion_purge (LauncherStorage.mk [⟨⟨"s1", "u", 0⟩, 3, 0⟩] 8) (by decide)⟩

/-! ### Sorting lemmas -/

theorem insertSorted_perm (x : InstanceInfo) (l : List InstanceInfo) :
    (insertSorted x l).Perm (x :: l) := by
  induction l with
  | nil => exact List.Perm.refl _
  | cons y ys ih =>
    unfold insertSorted
    by_cases h : startBefore x y
    · rw [if_pos h]
    · rw [if_neg h]
      exact (List.Perm.cons y ih).trans (List.Perm.swap x y ys)

theorem sortStarts_perm (l : List InstanceInfo) : (sortStarts l).Perm l := by
  induction l with
  | nil => exact List.Perm.refl _
  | cons x xs ih =>
    have h1 : sortStarts (x :: xs) = insertSorted x (sortStarts xs) := rfl
    rw [h1]
    exact (insertSorted_perm x (sortStarts xs)).trans (List.Perm.cons x ih)

theorem mem_sortStarts (d : InstanceInfo) (l : List InstanceInfo) :
    d ∈ sortStarts l ↔ d ∈ l :=
  (sortStarts_perm l).mem_iff

theorem sortStarts_idents_nodup (l : List InstanceInfo)
    (h : (l.map (fun d => d.instanceIdent)).Nodup) :
    ((sortStarts l).map (fun d => d.instanceIdent)).Nodup :=
  (((sortStarts_perm l).map (fun d => d.instanceIdent)).nodup_iff).mpr h

/-! ### Live-map lemmas -/

theorem liveHasIdent_iff (L : List Instance) (id : InstanceIdent) :
    liveHasIdent L id = true ↔ id ∈ L.map Instance.ident := by
  unfold liveHasIdent
  rw [List.any_eq_true]
  constructor
  · rintro ⟨i, hi, hbeq⟩
    rw [beq_iff_eq] at hbeq
    exact hbeq ▸ List.mem_map_of_mem Instance.ident hi
  · intro hm
    rw [List.mem_map] at hm
    obtain ⟨i, hi, rfl⟩ := hm
    exact ⟨i, hi, by simp⟩

theorem ident_ite (j i : Instance) :
    (if j.ident == i.ident then i else j).ident = j.ident := by
  by_cases h : j.ident = i.ident
  · simp [h]
  · simp [h]

theorem insertInstance_map_ident_of_has (m : List Instance) (i : Instance)
    (h : liveHasIdent m i.ident = true) :
    (insertInstance m i).map Instance.ident = m.map Instance.ident := by
  unfold insertInstance
  rw [if_pos h, List.map_map]
  apply List.map_congr_left
  intro j _
  exact ident_ite j i

theorem mem_insertInstance_idents (m : List Instance) (i : Instance) (id : InstanceIdent) :
    id ∈ (insertInstance m i).map Instance.ident ↔
      id ∈ m.map Instance.ident ∨ id = i.ident := by
  by_cases h : liveHasIdent m i.ident = true
  · rw [insertInstance_map_ident_of_has m i h]
    constructor
    · exact fun hm => Or.inl hm
    · rintro (hm | rfl)
      · exact hm
      · exact (liveHasIdent_iff m i.ident).mp h
  · unfold insertInstance
    rw [if_neg h, List.map_append]
    simp [Instance.ident, or_comm, eq_comm]

theorem insertInstance_idents_nodup (m : List Instance) (i : Instance)
    (h : (m.map Instance.ident).Nodup) :
    ((insertInstance m i).map Instance.ident).Nodup := by
  by_cases hh : liveHasIdent m i.ident = true
  · rw [insertInstance_map_ident_of_has m i hh]
    exact h
  · unfold insertInstance
    rw [if_neg hh, List.map_append]
    have hni : i.ident ∉ m.map Instance.ident := by
      intro hc
      exact hh ((liveHasIdent_iff m i.ident).mpr hc)
    simp [List.nodup_append, h, hni]

theorem findLive_insertInstance_self (m : List Instance) (i : Instance) :
    findLive (insertInstance m i) i.ident = Option.some i := by
  unfold insertInstance findLive
  by_cases h : liveHasIdent m i.ident = true
  · rw [if_pos h, List.find?_map]
    have hpred : ((fun k => k.ident == i.ident)
          ∘ (fun j => if j.ident == i.ident then i else j))
        = (fun j => j.ident == i.ident) := by
      funext j
      by_cases hj : j.ident = i.ident
      · simp [Function.comp, hj]
      · simp [Function.comp, hj]
    rw [hpred]
    unfold liveHasIdent at h
    have hsome : (m.find? (fun j => j.ident == i.ident)).isSome := by
      rw [List.find?_isSome]
      rw [List.any_eq_true] at h
      exact h
    obtain ⟨j0, hj0⟩ := Option.isSome_iff_exists.mp hsome
    have hp := List.find?_some hj0
    rw [hj0]
    have hred : Option.map (fun j => if j.ident == i.ident then i else j) (Option.some j0)
        = Option.some (if j0.ident == i.ident then i else j0) := rfl
    rw [hred, if_pos (show (j0.ident == i.ident) = true from hp)]
  · rw [if_neg h, List.find?_append]
    have hnone : m.find? (fun k => k.ident == i.ident) = Option.none := by
      cases hf : m.find? (fun k => k.ident == i.ident) with
      | none => rfl
      | some j0 =>
        exfalso
        apply h
        unfold liveHasIdent
        rw [List.any_eq_true]
        refine ⟨j0, List.mem_of_find?_eq_some hf, ?_⟩
        have hx := List.find?_some hf
        exact hx
    rw [hnone]
    simp [List.find?_cons]

theorem findLive_insertInstance_other (m : List Instance) (i : Instance) (id : InstanceIdent)
    (h : id ≠ i.ident) :
    findLive (insertInstance m i) id = findLive m id := by
  have hne : (i.ident == id) = false := by
    rw [beq_eq_false_iff_ne]
    exact fun hc => h hc.symm
  unfold insertInstance findLive
  by_cases hh : liveHasIdent m i.ident = true
  · rw [if_pos hh, List.find?_map]
    have hpred : ((fun k => k.ident == id)
          ∘ (fun j => if j.ident == i.ident then i else j))
        = (fun j => j.ident == id) := by
      funext j
      by_cases hj : j.ident = i.ident
      · simp [Function.comp, hj, hne]
      · simp [Function.comp, hj]
    rw [hpred]
    cases hf : m.find? (fun j => j.ident == id) with
    | none => rfl
    | some j0 =>
      have hp0 := List.find?_some hf
      have hp : j0.ident = id := by
        have hp1 : (j0.ident == id) = true := hp0
        rw [beq_iff_eq] at hp1
        exact hp1
      have hj0 : ¬(j0.ident = i.ident) := by
        rw [hp]
        exact fun hc => h hc
      have hred : Option.map (fun j => if j.ident == i.ident then i else j) (Option.some j0)
          = Option.some (if j0.ident == i.ident then i else j0) := rfl
      rw [hred, if_neg (by simpa using hj0)]
  · rw [if_neg hh, List.find?_append]
    have htail : List.find? (fun k => k.ident == id) [i] = Option.none := by
      simp [List.find?_cons, hne]
    rw [htail, Option.or_none]

/-! ### Start-phase lemmas -/

theorem startJob_ident (cache : List ServiceInfo) (env : CycleEnv) (d : InstanceInfo) :
    (Launcher.startJob cache env d).ident = d.instanceIdent := by
  unfold Launcher.startJob
  cases findService cache d.instanceIdent.serviceID with
  | none => rfl
  | some svc =>
    dsimp only
    by_cases hb : env.brokenServices.contains d.instanceIdent.serviceID
    · rw [if_pos hb]
      rfl
    · rw [if_neg hb]
      cases env.runnerStart d with
      | none => rfl
      | some e => rfl

theorem startPhase_cons (cache : List ServiceInfo) (env : CycleEnv) (base : List Instance)
    (d : InstanceInfo) (rest : List InstanceInfo) :
    Launcher.startPhase cache env base (d :: rest)
      = Launcher.startPhase cache env (insertInstance base (Launcher.startJob cache env d)) rest :=
  rfl

theorem mem_startPhase_idents (cache : List ServiceInfo) (env : CycleEnv)
    (starts : List InstanceInfo) (base : List Instance) (id : InstanceIdent) :
    id ∈ (Launcher.startPhase cache env base starts).map Instance.ident ↔
      id ∈ base.map Instance.ident ∨ id ∈ starts.map (fun d => d.instanceIdent) := by
  induction starts generalizing base with
  | nil => simp [Launcher.startPhase]
  | cons d rest ih =>
    rw [startPhase_cons, ih, mem_insertInstance_idents, startJob_ident]
    simp [or_assoc]

theorem startPhase_idents_nodup (cache : List ServiceInfo) (env : CycleEnv)
    (starts : List InstanceInfo) (base : List Instance)
    (h : (base.map Instance.ident).Nodup) :
    ((Launcher.startPhase cache env base starts).map Instance.ident).Nodup := by
  induction starts generalizing base with
  | nil => exact h
  | cons d rest ih =>
    rw [startPhase_cons]
    exact ih _ (insertInstance_idents_nodup _ _ h)

theorem findLive_startPhase_not_mem (cache : List ServiceInfo) (env : CycleEnv)
    (starts : List InstanceInfo) (base : List Instance) (id : InstanceIdent)
    (h : ∀ d ∈ starts, d.instanceIdent ≠ id) :
    findLive (Launcher.startPhase cache env base starts) id = findLive base id := by
  induction starts generalizing base with
  | nil => rfl
  | cons d rest ih =>
    rw [startPhase_cons, ih _ (fun e he => h e (List.mem_cons_of_mem d he))]
    apply findLive_insertInstance_other
    rw [startJob_ident]
    exact fun hc => (h d (List.mem_cons_self d rest)) hc.symm

theorem findLive_startPhase_mem (cache : List ServiceInfo) (env : CycleEnv)
    (starts : List InstanceInfo) (base : List Instance) (d : InstanceInfo)
    (hmem : d ∈ starts) (hnd : (starts.map (fun x => x.instanceIdent)).Nodup) :
    findLive (Launcher.startPhase cache env base starts) d.instanceIdent
      = Option.some (Launcher.startJob cache env d) := by
  induction starts generalizing base with
  | nil => cases hmem
  | cons a rest ih =>
    rw [startPhase_cons]
    rw [List.map_cons, List.nodup_cons] at hnd
    rcases List.mem_cons.mp hmem with rfl | hrest
    · have hnotin : ∀ e ∈ rest, e.instanceIdent ≠ d.instanceIdent := by
        intro e he hc
        exact hnd.1 (hc ▸ List.mem_map_of_mem (fun x => x.instanceIdent) he)
      rw [findLive_startPhase_not_mem _ _ _ _ _ hnotin]
      rw [← startJob_ident cache env d]
      exact findLive_insertInstance_self _ _
    · exact ih _ hrest hnd.2

/-! ### Diff lemmas -/

theorem stopCondition_false_mem_D (D : List InstanceInfo) (cache : List ServiceInfo)
    (force : Bool) (i : Instance)
    (h : Launcher.stopCondition D cache force i = false) :
    i.ident ∈ D.map (fun d => d.instanceIdent) := by
  unfold Launcher.stopCondition at h
  cases hf : D.find? (fun d => d.instanceIdent == i.ident) with
  | none => rw [hf] at h; cases h
  | some d =>
    have hmem := List.mem_of_find?_eq_some hf
    have hp := List.find?_some hf
    have hpe : d.instanceIdent = i.ident := by
      have hp1 : (d.instanceIdent == i.ident) = true := hp
      rwa [beq_iff_eq] at hp1
    exact hpe ▸ List.mem_map_of_mem (fun d => d.instanceIdent) hmem

theorem mem_survivors_idents (D : List InstanceInfo) (cache : List ServiceInfo) (force : Bool)
    (L : List Instance) (id : InstanceIdent)
    (h : id ∈ (Launcher.survivors D cache force L).map Instance.ident) :
    id ∈ D.map (fun d => d.instanceIdent) := by
  rw [List.mem_map] at h
  obtain ⟨i, hi, rfl⟩ := h
  have hf := List.mem_filter.mp hi
  have hsc : Launcher.stopCondition D cache force i = false := by
    have hb := hf.2
    simpa using hb
  exact stopCondition_false_mem_D D cache force i hsc

theorem survivors_idents_nodup (D : List InstanceInfo) (cache : List ServiceInfo) (force : Bool)
    (L : List Instance) (h : (L.map Instance.ident).Nodup) :
    ((Launcher.survivors D cache force L).map Instance.ident).Nodup := by
  apply List.Nodup.sublist _ h
  exact List.Sublist.map Instance.ident (List.filter_sublist L)

theorem toStart_subset_idents (L : List Instance) (D : List InstanceInfo)
    (cache : List ServiceInfo) (force : Bool) (id : InstanceIdent)
    (h : id ∈ (Launcher.toStart L D cache force).map (fun d => d.instanceIdent)) :
    id ∈ D.map (fun d => d.instanceIdent) := by
  rw [List.mem_map] at h ⊢
  obtain ⟨d, hd, rfl⟩ := h
  exact ⟨d, (List.mem_filter.mp hd).1, rfl⟩

theorem toStart_idents_nodup (L : List Instance) (D : List InstanceInfo)
    (cache : List ServiceInfo) (force : Bool)
    (hD : (D.map (fun d => d.instanceIdent)).Nodup) :
    ((Launcher.toStart L D cache force).map (fun d => d.instanceIdent)).Nodup := by
  apply List.Nodup.sublist _ hD
  exact List.Sublist.map (fun d => d.instanceIdent) (List.filter_sublist D)

theorem mem_sortStarts_map (l : List InstanceInfo) (id : InstanceIdent) :
    id ∈ (sortStarts l).map (fun d => d.instanceIdent) ↔
      id ∈ l.map (fun d => d.instanceIdent) :=
  ((sortStarts_perm l).map (fun d => d.instanceIdent)).mem_iff

theorem mem_toStart_of_desired (L : List Instance) (D : List InstanceInfo)
    (cache : List ServiceInfo) (force : Bool) (d : InstanceInfo) (hd : d ∈ D)
    (hs : liveHasIdent (Launcher.survivors D cache force L) d.instanceIdent = false) :
    d ∈ Launcher.toStart L D cache force := by
  unfold Launcher.toStart
  rw [List.mem_filter]
  refine ⟨hd, ?_⟩
  by_cases hLl : liveHasIdent L d.instanceIdent = true
  · rw [Bool.or_eq_true]
    right
    unfold liveHasIdent at hLl ⊢
    rw [List.any_eq_true] at hLl ⊢
    obtain ⟨i, hi, hie⟩ := hLl
    refine ⟨i, ?_, hie⟩
    rw [Launcher.toStop, List.mem_filter]
    refine ⟨hi, ?_⟩
    by_contra hc
    have hcf : Launcher.stopCondition D cache force i = false := by
      cases hx : Launcher.stopCondition D cache force i with
      | false => rfl
      | true => exact absurd hx hc
    apply absurd hs
    rw [Bool.not_eq_false]
    unfold liveHasIdent Launcher.survivors
    rw [List.any_eq_true]
    refine ⟨i, ?_, hie⟩
    rw [List.mem_filter]
    exact ⟨hi, by simp [hcf]⟩
  · rw [Bool.or_eq_true]
    left
    simpa using hLl

/-! ### Cycle-level lemmas -/

theorem mem_cycleLive_idents (st : LauncherState) (services : List ServiceInfo)
    (D : List InstanceInfo) (force : Bool) (env : CycleEnv) (id : InstanceIdent) :
    id ∈ (Launcher.cycleLive st services D force env).map Instance.ident ↔
      id ∈ D.map (fun d => d.instanceIdent) := by
  unfold Launcher.cycleLive
  rw [mem_startPhase_idents]
  constructor
  · rintro (hsur | hstart)
    · exact mem_survivors_idents _ _ _ _ _ hsur
    · apply toStart_subset_idents st.live D (buildCache services D) force
      rw [← mem_sortStarts_map]
      exact hstart
  · intro hid
    rw [List.mem_map] at hid
    obtain ⟨d, hd, rfl⟩ := hid
    by_cases hs : liveHasIdent
        (Launcher.survivors D (buildCache services D) force st.live) d.instanceIdent = true
    · left
      exact (liveHasIdent_iff _ _).mp hs
    · right
      have hsf : liveHasIdent
          (Launcher.survivors D (buildCache services D) force st.live) d.instanceIdent
            = false := by
        cases hx : liveHasIdent
            (Launcher.survivors D (buildCache services D) force st.live) d.instanceIdent with
        | false => rfl
        | true => exact absurd hx hs
      have hmem := mem_toStart_of_desired st.live D (buildCache services D) force d hd hsf
      rw [Launcher.cycleStarts, mem_sortStarts_map]
      exact List.mem_map_of_mem (fun d => d.instanceIdent) hmem

theorem cycleLive_idents_nodup (st : LauncherState) (services : List ServiceInfo)
    (D : List InstanceInfo) (force : Bool) (env : CycleEnv)
    (hL : (st.live.map Instance.ident).Nodup) :
    ((Launcher.cycleLive st services D force env).map Instance.ident).Nodup := by
  unfold Launcher.cycleLive
  exact startPhase_idents_nodup _ _ _ _ (survivors_idents_nodup _ _ _ _ hL)

/-- C2: once RunInstances succeeds, the live map holds exactly one instance
per desired ident and none for any other ident, and the live map keeps its
at-most-one-record-per-ident invariant. -/
theorem launcher_run_instances_converges (st : LauncherState) (services : List ServiceInfo)
    (layers : List LayerInfo) (D : List InstanceInfo) (force : Bool) (env : CycleEnv)
    (hL : (st.live.map Instance.ident).Nodup)
    (hok : (Launcher.runInstances st services layers D force env).result = Option.none) :
    ((Launcher.runInstances st services layers D force env).state.live.map Instance.ident).Nodup
      ∧ ∀ id : InstanceIdent,
        id ∈ (Launcher.runInstances st services layers D force env).state.live.map Instance.ident
          ↔ id ∈ D.map (fun d => d.instanceIdent) := by
  unfold Launcher.runInstances at *
  by_cases hsm : env.serviceManagerError
  · rw [if_pos hsm] at hok
    cases hok
  · rw [if_neg hsm] at hok ⊢
    by_cases hst : env.storageWriteError
    · rw [if_pos hst] at hok
      cases hok
    · rw [if_neg hst]
      exact ⟨cycleLive_idents_nodup st services D force env hL,
        fun id => mem_cycleLive_idents st services D force env id⟩

theorem launcher_run_instances_converges_witness :
    (((LauncherState.mk [] [] []).live.map Instance.ident).Nodup ∧
      (Launcher.runInstances (LauncherState.mk [] [] []) [⟨"s1", 1⟩] []
        [⟨⟨"s1", "u", 0⟩, 5, 0⟩] false
        (CycleEnv.mk false false [] (fun _ => Option.none))).result = Option.none) ∧
    (((Launcher.runInstances (LauncherState.mk [] [] []) [⟨"s1", 1⟩] []
        [⟨⟨"s1", "u", 0⟩, 5, 0⟩] false
        (CycleEnv.mk false false [] (fun _ => Option.none))).state.live.map
          Instance.ident).Nodup
      ∧ ∀ id : InstanceIdent,
        id ∈ (Launcher.runInstances (LauncherState.mk [] [] []) [⟨"s1", 1⟩] []
          [⟨⟨"s1", "u", 0⟩, 5, 0⟩] false
          (CycleEnv.mk false false [] (fun _ => Option.none))).state.live.map Instance.ident
          ↔ id ∈ [InstanceInfo.mk ⟨"s1", "u", 0⟩ 5 0].map (fun d => d.instanceIdent)) :=
  ⟨⟨by decide, by decide⟩,
    launcher_run_instances_converges (LauncherState.mk [] [] []) [⟨"s1", 1⟩] []
      [⟨⟨"s1", "u", 0⟩, 5, 0⟩] false (CycleEnv.mk false false [] (fun _ => Option.none))
      (by decide) (by decide)⟩

/-- C3: when an infrastructure error occurs in a cycle, RunInstances returns
that error (the service-manager failure when the service push fails, the
storage failure otherwise) and the in-memory state equals the pre-cycle
snapshot. -/
theorem launcher_infra_error_atomic (st : LauncherState) (services : List ServiceInfo)
    (layers : List LayerInfo) (D : List InstanceInfo) (force : Bool) (env : CycleEnv)
    (h : env.serviceManagerError = true ∨ env.storageWriteError = true) :
    (Launcher.runInstances st services layers D force env).result
      = (if env.serviceManagerError then Option.some InfraError.serviceManager
          else Option.some InfraError.storageWrite) ∧
    (Launcher.runInstances st services layers D force env).state = st := by
  unfold Launcher.runInstances
  by_cases hsm : env.serviceManagerError
  · rw [if_pos hsm, if_pos hsm]
    exact ⟨rfl, rfl⟩
  · rcases h with h1 | h2
    · exact absurd h1 hsm
    · rw [if_neg hsm, if_neg hsm, if_pos h2]
      exact ⟨rfl, rfl⟩

theorem launcher_infra_error_atomic_witness :
    ((CycleEnv.mk false true [] (fun _ => Option.none)).serviceManagerError = true
      ∨ (CycleEnv.mk false true [] (fun _ => Option.none)).storageWriteError = true) ∧
    ((Launcher.runInstances (LauncherState.mk [] [] []) [⟨"s1", 1⟩] []
        [⟨⟨"s1", "u", 0⟩, 5, 0⟩] false (CycleEnv.mk false true [] (fun _ => Option.none))).result
      = (if (CycleEnv.mk false true [] (fun _ => Option.none)).serviceManagerError
          then Option.some InfraError.serviceManager
          else Option.some InfraError.storageWrite) ∧
      (Launcher.runInstances (LauncherState.mk [] [] []) [⟨"s1", 1⟩] []
        [⟨⟨"s1", "u", 0⟩, 5, 0⟩] false (CycleEnv.mk false true [] (fun _ => Option.none))).state
        = LauncherState.mk [] [] []) :=
  ⟨Or.inr (by decide),
    launcher_infra_error_atomic (LauncherState.mk [] [] []) [⟨"s1", 1⟩] []
      [⟨⟨"s1", "u", 0⟩, 5, 0⟩] false (CycleEnv.mk false true [] (fun _ => Option.none))
      (Or.inr (by decide))⟩

theorem cycleTrace_filter_decomp (st : LauncherState) (services : List ServiceInfo)
    (D : List InstanceInfo) (force : Bool) :
    Launcher.cycleTrace st services D force
      = (Launcher.cycleTrace st services D force).filter Event.isStop
        ++ (Launcher.cycleTrace st services D force).filter Event.isStart := by
  unfold Launcher.cycleTrace
  rw [List.filter_append, List.filter_append]
  have h1 : ∀ (l : List Instance),
      (l.map (fun i => Event.stopJob i.ident)).filter Event.isStop
        = l.map (fun i => Event.stopJob i.ident) := by
    intro l
    apply List.filter_eq_self.mpr
    intro e he
    rw [List.mem_map] at he
    obtain ⟨i, _, rfl⟩ := he
    rfl
  have h2 : ∀ (l : List InstanceInfo),
      (l.map (fun x => Event.startJob x.instanceIdent)).filter Event.isStop = [] := by
    intro l
    rw [List.filter_eq_nil_iff]
    intro e he
    rw [List.mem_map] at he
    obtain ⟨x, _, rfl⟩ := he
    simp [Event.isStop]
  have h3 : ∀ (l : List Instance),
      (l.map (fun i => Event.stopJob i.ident)).filter Event.isStart = [] := by
    intro l
    rw [List.filter_eq_nil_iff]
    intro e he
    rw [List.mem_map] at he
    obtain ⟨i, _, rfl⟩ := he
    simp [Event.isStart]
  have h4 : ∀ (l : List InstanceInfo),
      (l.map (fun x => Event.startJob x.instanceIdent)).filter Event.isStart
        = l.map (fun x => Event.startJob x.instanceIdent) := by
    intro l
    apply List.filter_eq_self.mpr
    intro e he
    rw [List.mem_map] at he
    obtain ⟨x, _, rfl⟩ := he
    rfl
  rw [h1, h2, h3, h4]
  simp

/-- C4: in every cycle, the job trace is the stop jobs followed by the start
jobs: the stop phase drains completely before any start job runs. -/
theorem launcher_stop_jobs_before_start_jobs (st : LauncherState) (services : List ServiceInfo)
    (layers : List LayerInfo) (D : List InstanceInfo) (force : Bool) (env : CycleEnv) :
    (Launcher.runInstances st services layers D force env).trace
      = ((Launcher.runInstances st services layers D force env).trace.filter Event.isStop)
        ++ ((Launcher.runInstances st services layers D force env).trace.filter Event.isStart)
    := by
  unfold Launcher.runInstances
  by_cases hsm : env.serviceManagerError
  · rw [if_pos hsm]
    rfl
  · rw [if_neg hsm]
    by_cases hst : env.storageWriteError
    · rw [if_pos hst]
      exact cycleTrace_filter_decomp st services D force
    · rw [if_neg hst]
      exact cycleTrace_filter_decomp st services D force

/-- C5: the cycle succeeds exactly when no infrastructure error occurred,
and in a successful cycle every to-start instance is processed and ends up
with the record its own start job produced, whether that job failed or
started the instance, independently of the other instances. -/
theorem launcher_instance_failure_isolation (st : LauncherState) (services : List ServiceInfo)
    (layers : List LayerInfo) (D : List InstanceInfo) (force : Bool) (env : CycleEnv)
    (hD : (D.map (fun d => d.instanceIdent)).Nodup) :
    ((Launcher.runInstances st services layers D force env).result = Option.none
      ↔ (env.serviceManagerError = false ∧ env.storageWriteError = false)) ∧
    (env.serviceManagerError = false → env.storageWriteError = false →
      ∀ d ∈ Launcher.toStart st.live D (buildCache services D) force,
        findLive (Launcher.runInstances st services layers D force env).state.live
            d.instanceIdent
          = Option.some (Launcher.startJob (buildCache services D) env d)) := by
  constructor
  · by_cases hsm : env.serviceManagerError <;> by_cases hst : env.storageWriteError <;>
      simp [Launcher.runInstances, hsm, hst]
  · intro hsm hst d hd
    have hstate : (Launcher.runInstances st services layers D force env).state.live
        = Launcher.cycleLive st services D force env := by
      unfold Launcher.runInstances
      rw [if_neg (by simp [hsm]), if_neg (by simp [hst])]
    rw [hstate]
    unfold Launcher.cycleLive
    apply findLive_startPhase_mem
    · rw [Launcher.cycleStarts, mem_sortStarts]
      exact hd
    · exact sortStarts_idents_nodup _ (toStart_idents_nodup _ _ _ _ hD)

theorem launcher_instance_failure_isolation_witness :
    (([InstanceInfo.mk ⟨"s1", "u", 0⟩ 5 0, InstanceInfo.mk ⟨"s1", "v", 1⟩ 4 0].map
        (fun d => d.instanceIdent)).Nodup) ∧
    (((Launcher.runInstances (LauncherState.mk [] [] []) [⟨"s1", 1⟩] []
        [⟨⟨"s1", "u", 0⟩, 5, 0⟩, ⟨⟨"s1", "v", 1⟩, 4, 0⟩] false
        (CycleEnv.mk false false [] (fun x => if x.instanceIdent.subjectID == "v"
          then Option.some "boom" else Option.none))).result = Option.none
      ↔ ((CycleEnv.mk false false [] (fun x => if x.instanceIdent.subjectID == "v"
          then Option.some "boom" else Option.none)).serviceManagerError = false
        ∧ (CycleEnv.mk false false [] (fun x => if x.instanceIdent.subjectID == "v"
          then Option.some "boom" else Option.none)).storageWriteError = false)) ∧
    ((CycleEnv.mk false false [] (fun x => if x.instanceIdent.subjectID == "v"
        then Option.some "boom" else Option.none)).serviceManagerError = false →
      (CycleEnv.mk false false [] (fun x => if x.instanceIdent.subjectID == "v"
        then Option.some "boom" else Option.none)).storageWriteError = false →
      ∀ d ∈ Launcher.toStart (LauncherState.mk [] [] []).live
          [⟨⟨"s1", "u", 0⟩, 5, 0⟩, ⟨⟨"s1", "v", 1⟩, 4, 0⟩]
          (buildCache [⟨"s1", 1⟩] [⟨⟨"s1", "u", 0⟩, 5, 0⟩, ⟨⟨"s1", "v", 1⟩, 4, 0⟩]) false,
        findLive (Launcher.runInstances (LauncherState.mk [] [] []) [⟨"s1", 1⟩] []
            [⟨⟨"s1", "u", 0⟩, 5, 0⟩, ⟨⟨"s1", "v", 1⟩, 4, 0⟩] false
            (CycleEnv.mk false false [] (fun x => if x.instanceIdent.subjectID == "v"
              then Option.some "boom" else Option.none))).state.live d.instanceIdent
          = Option.some (Launcher.startJob
              (buildCache [⟨"s1", 1⟩] [⟨⟨"s1", "u", 0⟩, 5, 0⟩, ⟨⟨"s1", "v", 1⟩, 4, 0⟩])
              (CycleEnv.mk false false [] (fun x => if x.instanceIdent.subjectID == "v"
                then Option.some "boom" else Option.none)) d))) :=
  ⟨by decide,
    launcher_instance_failure_isolation (LauncherState.mk [] [] []) [⟨"s1", 1⟩] []
      [⟨⟨"s1", "u", 0⟩, 5, 0⟩, ⟨⟨"s1", "v", 1⟩, 4, 0⟩] false
      (CycleEnv.mk false false [] (fun x => if x.instanceIdent.subjectID == "v"
        then Option.some "boom" else Option.none))
      (by decide)⟩

/-! ### Run-status aggregation lemmas -/

theorem updStep_ident (r : RunStatus) (j : Instance) :
    (if j.ident == r.instanceIdent then
        { j with runState := r.state, lastError := r.error, generation := j.generation + 1 }
      else j).ident = j.ident := by
  by_cases hj : (j.ident == r.instanceIdent) = true
  · rw [if_pos hj]
    rfl
  · rw [if_neg hj]

theorem applyRunStatus_map_ident (m : List Instance) (r : RunStatus) :
    (Launcher.applyRunStatus m r).map Instance.ident = m.map Instance.ident := by
  unfold Launcher.applyRunStatus
  by_cases h : liveHasIdent m r.instanceIdent
  · rw [if_pos h, List.map_map]
    apply List.map_congr_left
    intro j _
    exact updStep_ident r j
  · rw [if_neg h]

theorem updateRunStatus_map_ident (L : List Instance) (rs : List RunStatus) :
    (Launcher.updateRunStatus L rs).map Instance.ident = L.map Instance.ident := by
  induction rs generalizing L with
  | nil => rfl
  | cons r rest ih =>
    have hstep : Launcher.updateRunStatus L (r :: rest)
        = Launcher.updateRunStatus (Launcher.applyRunStatus L r) rest := rfl
    rw [hstep, ih, applyRunStatus_map_ident]

theorem findLive_eq_of_mem_nodup (L : List Instance) (i : Instance) (id : InstanceIdent)
    (hL : (L.map Instance.ident).Nodup) (hi : i ∈ L) (hid : i.ident = id) :
    findLive L id = Option.some i := by
  induction L with
  | nil => cases hi
  | cons a as ih =>
    rw [List.map_cons, List.nodup_cons] at hL
    rcases List.mem_cons.mp hi with rfl | hmem
    · unfold findLive
      rw [List.find?_cons_of_pos _ (by simp [hid])]
    · by_cases ha : a.ident = id
      · exfalso
        apply hL.1
        rw [ha, ← hid]
        exact List.mem_map_of_mem Instance.ident hmem
      · unfold findLive at *
        rw [List.find?_cons_of_neg _ (by simp [ha])]
        exact ih hL.2 hmem

theorem findLive_applyRunStatus_known (L : List Instance) (r : RunStatus) (i : Instance)
    (hL : (L.map Instance.ident).Nodup) (hi : i ∈ L) (hid : i.ident = r.instanceIdent) :
    findLive (Launcher.applyRunStatus L r) r.instanceIdent
      = Option.some (Instance.mk i.info i.serviceVersion r.state r.error (i.generation + 1))
    := by
  unfold Launcher.applyRunStatus
  have hhas : liveHasIdent L r.instanceIdent = true :=
    (liveHasIdent_iff _ _).mpr (hid ▸ List.mem_map_of_mem Instance.ident hi)
  rw [if_pos hhas]
  unfold findLive
  rw [List.find?_map]
  have hpred : ((fun (k : Instance) => k.ident == r.instanceIdent)
        ∘ (fun (j : Instance) => if j.ident == r.instanceIdent then
            { j with runState := r.state, lastError := r.error, generation := j.generation + 1 }
          else j))
      = (fun (j : Instance) => j.ident == r.instanceIdent) := by
    funext j
    have := updStep_ident r j
    simp only [Function.comp]
    rw [this]
  rw [hpred]
  have hfind : L.find? (fun j => j.ident == r.instanceIdent) = Option.some i :=
    findLive_eq_of_mem_nodup L i r.instanceIdent hL hi hid
  rw [hfind]
  have hred : Option.map (fun (j : Instance) => if j.ident == r.instanceIdent then
        { j with runState := r.state, lastError := r.error, generation := j.generation + 1 }
      else j) (Option.some i)
      = Option.some (if i.ident == r.instanceIdent then
        { i with runState := r.state, lastError := r.error, generation := i.generation + 1 }
      else i) := rfl
  rw [hred, if_pos (by simp [hid])]

/-- C7: processing a runner report never creates or removes live records
(the ident set is preserved for any report list); a report for an unknown
ident leaves the state untouched; a report for a known ident rewrites
exactly that record with the reported runtime state and error and a bumped
generation. -/
theorem launcher_update_run_status (L : List Instance) (rs : List RunStatus) (r : RunStatus)
    (hL : (L.map Instance.ident).Nodup) :
    ((Launcher.updateRunStatus L rs).map Instance.ident = L.map Instance.ident) ∧
    (liveHasIdent L r.instanceIdent = false → Launcher.updateRunStatus L [r] = L) ∧
    (∀ i ∈ L, i.ident = r.instanceIdent →
      findLive (Launcher.updateRunStatus L [r]) r.instanceIdent
        = Option.some (Instance.mk i.info i.serviceVersion r.state r.error (i.generation + 1)))
    := by
  refine ⟨updateRunStatus_map_ident L rs, ?_, ?_⟩
  · intro h
    have hone : Launcher.updateRunStatus L [r] = Launcher.applyRunStatus L r := rfl
    rw [hone]
    unfold Launcher.applyRunStatus
    rw [if_neg (by simp [h])]
  · intro i hi hid
    have hone : Launcher.updateRunStatus L [r] = Launcher.applyRunStatus L r := rfl
    rw [hone]
    exact findLive_applyRunStatus_known L r i hL hi hid

theorem launcher_update_run_status_witness :
    (([Instance.mk ⟨⟨"s1", "u", 0⟩, 5, 0⟩ 1 InstanceRunState.starting Option.none 1].map
        Instance.ident).Nodup) ∧
    (((Launcher.updateRunStatus
        [Instance.mk ⟨⟨"s1", "u", 0⟩, 5, 0⟩ 1 InstanceRunState.starting Option.none 1]
        [RunStatus.mk ⟨"s2", "x", 7⟩ InstanceRunState.running Option.none]).map Instance.ident
      = [Instance.mk ⟨⟨"s1", "u", 0⟩, 5, 0⟩ 1 InstanceRunState.starting Option.none 1].map
          Instance.ident) ∧
    (liveHasIdent [Instance.mk ⟨⟨"s1", "u", 0⟩, 5, 0⟩ 1 InstanceRunState.starting Option.none 1]
        (RunStatus.mk ⟨"s2", "x", 7⟩ InstanceRunState.running Option.none).instanceIdent = false →
      Launcher.updateRunStatus
        [Instance.mk ⟨⟨"s1", "u", 0⟩, 5, 0⟩ 1 InstanceRunState.starting Option.none 1]
        [RunStatus.mk ⟨"s2", "x", 7⟩ InstanceRunState.running Option.none]
        = [Instance.mk ⟨⟨"s1", "u", 0⟩, 5, 0⟩ 1 InstanceRunState.starting Option.none 1]) ∧
    (∀ i ∈ [Instance.mk ⟨⟨"s1", "u", 0⟩, 5, 0⟩ 1 InstanceRunState.starting Option.none 1],
      i.ident = (RunStatus.mk ⟨"s2", "x", 7⟩ InstanceRunState.running Option.none).instanceIdent →
      findLive (Launcher.updateRunStatus
          [Instance.mk ⟨⟨"s1", "u", 0⟩, 5, 0⟩ 1 InstanceRunState.starting Option.none 1]
          [RunStatus.mk ⟨"s2", "x", 7⟩ InstanceRunState.running Option.none])
          (RunStatus.mk ⟨"s2", "x", 7⟩ InstanceRunState.running Option.none).instanceIdent
        = Option.some (Instance.mk i.info i.serviceVersion
            (RunStatus.mk ⟨"s2", "x", 7⟩ InstanceRunState.running Option.none).state
            (RunStatus.mk ⟨"s2", "x", 7⟩ InstanceRunState.running Option.none).error
            (i.generation + 1)))) :=
  ⟨by decide,
    launcher_update_run_status
      [Instance.mk ⟨⟨"s1", "u", 0⟩, 5, 0⟩ 1 InstanceRunState.starting Option.none 1]
      [RunStatus.mk ⟨"s2", "x", 7⟩ InstanceRunState.running Option.none]
      (RunStatus.mk ⟨"s2", "x", 7⟩ InstanceRunState.running Option.none)
      (by decide)⟩

/-! ### Override evaluation lemmas -/

theorem evalOverrides_go (id : InstanceIdent) (now : Nat) (v : String) :
    ∀ (entries : List EnvVarEntry) (ov : String → Option (Nat × String)),
      (entries.foldl (applyOverride id now) ov) v
        = (candidates entries id now v).foldl pickStep (ov v) := by
  intro entries
  induction entries with
  | nil =>
    intro ov
    rfl
  | cons e rest ih =>
    intro ov
    have hstep : List.foldl (applyOverride id now) ov (e :: rest)
        = List.foldl (applyOverride id now) (applyOverride id now ov e) rest := rfl
    rw [hstep, ih]
    by_cases hma : (e.selector.selects id && e.active now) = true
    · by_cases hnv : e.name = v
      · have hcand : candidates (e :: rest) id now v = e :: candidates rest id now v := by
          unfold candidates
          rw [List.filter_cons_of_pos]
          simp [hma, hnv]
        rw [hcand]
        have hfold : List.foldl pickStep (ov v) (e :: candidates rest id now v)
            = List.foldl pickStep (pickStep (ov v) e) (candidates rest id now v) := rfl
        rw [hfold]
        congr 1
        unfold applyOverride
        rw [if_pos hma]
        rw [if_pos hnv.symm]
        unfold pickStep
        cases ov v with
        | none => rfl
        | some p => rfl
      · have hcand : candidates (e :: rest) id now v = candidates rest id now v := by
          unfold candidates
          rw [List.filter_cons_of_neg]
          simp [hnv]
        rw [hcand]
        congr 1
        unfold applyOverride
        rw [if_pos hma]
        rw [if_neg (fun hc => hnv hc.symm)]
    · have hcand : candidates (e :: rest) id now v = candidates rest id now v := by
        unfold candidates
        apply List.filter_cons_of_neg
        intro hc
        rw [Bool.and_eq_true] at hc
        exact hma hc.1
      rw [hcand]
      congr 1
      unfold applyOverride
      rw [if_neg hma]

theorem pickWinner_spec_max :
    ∀ (l : List EnvVarEntry) (acc : Option (Nat × String)) (r : Nat × String),
      l.foldl pickStep acc = Option.some r →
      (∀ e ∈ l, e.selector.specificity ≤ r.1) ∧
      (∀ p, acc = Option.some p → p.1 ≤ r.1) := by
  intro l
  induction l with
  | nil =>
    intro acc r h
    refine ⟨fun e he => absurd he (List.not_mem_nil e), fun p hp => ?_⟩
    rw [hp] at h
    have hpr : p = r := Option.some.inj h
    rw [hpr]
  | cons e rest ih =>
    intro acc r h
    have hstep : (e :: rest).foldl pickStep acc = rest.foldl pickStep (pickStep acc e) := rfl
    rw [hstep] at h
    obtain ⟨hrest, hacc⟩ := ih (pickStep acc e) r h
    have hp0 : ∃ p0, pickStep acc e = Option.some p0 ∧ e.selector.specificity ≤ p0.1
        ∧ ∀ p, acc = Option.some p → p.1 ≤ p0.1 := by
      cases acc with
      | none =>
        exact ⟨(e.selector.specificity, e.value), rfl, le_refl _, fun p hp => by cases hp⟩
      | some q =>
        by_cases hq : q.1 ≤ e.selector.specificity
        · refine ⟨(e.selector.specificity, e.value), ?_, le_refl _, ?_⟩
          · show (if q.1 ≤ e.selector.specificity
                then Option.some (e.selector.specificity, e.value)
                else Option.some q)
              = Option.some (e.selector.specificity, e.value)
            rw [if_pos hq]
          · intro p hp
            have hpq : q = p := Option.some.inj hp
            rw [← hpq]
            exact hq
        · refine ⟨q, ?_, le_of_lt (Nat.lt_of_not_le hq), ?_⟩
          · show (if q.1 ≤ e.selector.specificity
                then Option.some (e.selector.specificity, e.value)
                else Option.some q)
              = Option.some q
            rw [if_neg hq]
          · intro p hp
            have hpq : q = p := Option.some.inj hp
            rw [← hpq]
    obtain ⟨p0, hp0eq, hp0spec, hp0acc⟩ := hp0
    refine ⟨?_, ?_⟩
    · intro x hx
      rcases List.mem_cons.mp hx with rfl | hx2
      · exact le_trans hp0spec (hacc p0 hp0eq)
      · exact hrest x hx2
    · intro p hp
      exact le_trans (hp0acc p hp) (hacc p0 hp0eq)

/-- C6: the overlay value computed for a variable at instance launch is the
winner of the matching, active entries for that variable, folded in entry
order with the more specific selector winning and the later entry winning
ties (so exact ident beats two fields beats one beats wildcard); the winner
has maximal specificity among all matching active entries of the
variable. -/
theorem override_env_specificity (entries : List EnvVarEntry) (id : InstanceIdent) (now : Nat)
    (v : String) :
    evalOverrides entries id now v = pickWinner (candidates entries id now v) ∧
    ∀ s val, pickWinner (candidates entries id now v) = Option.some (s, val) →
      ∀ c ∈ candidates entries id now v, c.selector.specificity ≤ s := by
  constructor
  · exact evalOverrides_go id now v entries (fun _ => Option.none)
  · intro s val hw c hc
    exact (pickWinner_spec_max (candidates entries id now v) Option.none (s, val) hw).1 c hc

theorem override_env_specificity_witness :
    (evalOverrides
        [EnvVarEntry.mk ⟨Option.none, Option.none, Option.none⟩ "X" "1" Option.none,
          EnvVarEntry.mk ⟨Option.some "s1", Option.some "u", Option.some 0⟩ "X" "2" Option.none]
        ⟨"s1", "u", 0⟩ 0 "X"
      = pickWinner (candidates
          [EnvVarEntry.mk ⟨Option.none, Option.none, Option.none⟩ "X" "1" Option.none,
            EnvVarEntry.mk ⟨Option.some "s1", Option.some "u", Option.some 0⟩ "X" "2" Option.none]
          ⟨"s1", "u", 0⟩ 0 "X") ∧
      ∀ s val, pickWinner (candidates
          [EnvVarEntry.mk ⟨Option.none, Option.none, Option.none⟩ "X" "1" Option.none,
            EnvVarEntry.mk ⟨Option.some "s1", Option.some "u", Option.some 0⟩ "X" "2" Option.none]
          ⟨"s1", "u", 0⟩ 0 "X") = Option.some (s, val) →
        ∀ c ∈ candidates
            [EnvVarEntry.mk ⟨Option.none, Option.none, Option.none⟩ "X" "1" Option.none,
              EnvVarEntry.mk ⟨Option.some "s1", Option.some "u", Option.some 0⟩ "X" "2"
                Option.none]
            ⟨"s1", "u", 0⟩ 0 "X", c.selector.specificity ≤ s) ∧
    evalOverrides
        [EnvVarEntry.mk ⟨Option.none, Option.none, Option.none⟩ "X" "1" Option.none,
          EnvVarEntry.mk ⟨Option.some "s1", Option.some "u", Option.some 0⟩ "X" "2" Option.none]
        ⟨"s1", "u", 0⟩ 0 "X" = Option.some (3, "2") :=
  ⟨override_env_specificity
      [EnvVarEntry.mk ⟨Option.none, Option.none, Option.none⟩ "X" "1" Option.none,
        EnvVarEntry.mk ⟨Option.some "s1", Option.some "u", Option.some 0⟩ "X" "2" Option.none]
      ⟨"s1", "u", 0⟩ 0 "X",
    by decide⟩

end Aos
